import Mathlib

/-!
Shallow embedding of the Telegram audio-store bot (`src/main.py`, with the
earlier variant `src/Perduny_bot.py` for its inline mode), together with
proofs of the specified properties of its record store, conversation state
machine, query engine, pagination controller and access guard.

Strings are modelled by Lean `String`; Python `str.lower()` by a character
map, `str.strip()` by a two-sided whitespace drop, substring membership (`x in y`) by a
scan over the character lists, and list truthiness by non-emptiness.
-/

namespace Perduny

/-- Model of Python `str.lower()`: lower-case every character. -/
def strLower (s : String) : String := ⟨s.toList.map Char.toLower⟩

/-- Model of Python `str.strip()`: drop whitespace from both ends. -/
def pyStrip (s : String) : String :=
  ⟨(((s.toList.dropWhile Char.isWhitespace).reverse.dropWhile Char.isWhitespace).reverse)⟩

/-- Model of Python substring membership over character lists:
`needle` occurs contiguously inside `hay`. -/
def substrList : List Char → List Char → Bool
  | needle, [] => needle.isEmpty
  | needle, c :: rest => needle.isPrefixOf (c :: rest) || substrList needle rest

/-- Model of the Python expression `needle in hay` on strings. -/
def containsSub (needle hay : String) : Bool :=
  substrList needle.toList hay.toList

/-- The two media kinds stored by `handle_audio` (`"voice"` / `"audio"`). -/
inductive MediaKind
  | voice
  | audio
deriving DecidableEq

/-- One entry of `cached_audios_data`: the dict written by
`handle_text_input` in state `awaiting_audio_name` (main.py lines 422-430). -/
structure AudioRecord where
  name : String
  author : String
  file_id : String
  ftype : MediaKind
  telegram_user_id : Int
deriving DecidableEq

/-- The values of `context.user_data["state"]` used in main.py. -/
inductive ConvState
  | awaiting_audio_for_add
  | awaiting_author_name
  | awaiting_audio_name
  | awaiting_new_author
  | awaiting_new_name
deriving DecidableEq

/-- The per-user `context.user_data` dictionary: each key is present
(`some`) or absent / popped (`none`). -/
structure UserData where
  state : Option ConvState
  pending_audio_file_id : Option String
  pending_audio_file_type : Option MediaKind
  temp_author_name : Option String
  temp_new_author : Option String
  editing_audio_id : Option String
deriving DecidableEq

/-- A fresh `user_data` dictionary with no keys set. -/
def emptyUserData : UserData := ⟨none, none, none, none, none, none⟩

/-- The guard condition `AUTHORIZED_USERS and user_id not in AUTHORIZED_USERS`
(main.py lines 93, 119, 138, 167, 226, 303, 346): a non-empty allow-list
that does not contain the user denies the request. -/
def guard_denies (authorized_users : List Int) (user_id : Int) : Bool :=
  !authorized_users.isEmpty && !authorized_users.contains user_id

/-- The spec's `IsAuthorized(identity)`: negation of the deny condition. -/
def is_authorized (authorized_users : List Int) (user_id : Int) : Bool :=
  !guard_denies authorized_users user_id

/-- The suggestion item built by `inline_query` in main.py
(`InlineQueryResultCachedVoice` / `...CachedAudio`). -/
structure InlineResult where
  rkind : MediaKind
  file_id : String
  title : String
deriving DecidableEq

/-- One page of the interactive list, as rendered by
`send_paginated_audios`: the slice of records sent, whether the
previous/next buttons are attached, and the page counter text data. -/
structure PageView where
  audios : List AudioRecord
  hasPrev : Bool
  hasNext : Bool
  pageNum : Nat
  totalPages : Nat
deriving DecidableEq

/-- Outcome of `send_paginated_audios`: either the single
"Пока нет сохраненных аудио" message (no buttons), or a rendered page. -/
inductive RenderResult
  | nothingStored
  | pageMsg (v : PageView)
deriving DecidableEq

/-- The replies sent back to the user, one constructor per distinct
`reply_text` / `answer` call site that the embedded handlers reach. -/
inductive Reply
  | startMsg
  | noRights
  | noRightsAdd
  | askAudio
  | listMsg
  | deleteUsage
  | deleted
  | deleteNotFound
  | moveUsage
  | moveBadNumber
  | moveEmptyList
  | moveNotFound
  | moveInvalidPosition
  | moved
  | editUsage
  | editNotFound
  | editPrompt
  | useAdd
  | unsupportedMedia
  | gotAudioAskAuthor
  | askName
  | pleaseAuthor
  | savedRecord
  | somethingWrong
  | askNewName
  | pleaseNewAuthor
  | updated
  | updateNotFound
  | editSomethingWrong
  | generalText
  | inlineAnswer (results : List InlineResult)
  | pageAnswer (r : RenderResult)
  | callbackError
  | noReply
deriving DecidableEq

/-- The deletion loop of `delete_audio_command` (main.py lines 185-200):
builds `new_cached_audios_data` keeping every item whose `file_id` differs
from the target, and records whether any match was found. -/
def delete_loop (audio_id : String) : List AudioRecord → List AudioRecord × Bool
  | [] => ([], false)
  | item :: rest =>
    let r := delete_loop audio_id rest
    if item.file_id = audio_id then (r.1, true) else (item :: r.1, r.2)

/-- `delete_audio_command` (main.py lines 159-216): guard, argument check,
strip the id, run the deletion loop, install the new list, and persist
(`save_audio_metadata`) only when a match was deleted.  The returned `Bool`
records whether the store was persisted. -/
def delete_audio_command (users : List Int) (uid : Int) (store : List AudioRecord)
    (args : List String) : List AudioRecord × Reply × Bool :=
  if guard_denies users uid then (store, .noRights, false)
  else
    match args with
    | [] => (store, .deleteUsage, false)
    | arg0 :: _ =>
      let audio_id_to_delete := pyStrip arg0
      let r := delete_loop audio_id_to_delete store
      if r.2 then (r.1, .deleted, true) else (r.1, .deleteNotFound, false)

/-- The search loop of `move_audio_command` / `edit_audio_command`:
index and item of the first record whose `file_id` matches. -/
def find_loop (audio_id : String) : List AudioRecord → Option (Nat × AudioRecord)
  | [] => none
  | item :: rest =>
    if item.file_id = audio_id then some (0, item)
    else
      match find_loop audio_id rest with
      | none => none
      | some p => some (p.1 + 1, p.2)

/-- Core of `move_audio_command` after argument parsing (main.py lines
247-295): empty-list check, find the record, reject a 1-indexed position
outside `[1, len]`, otherwise `pop` the original index and `insert` at the
zero-indexed target, persisting on success. -/
def move_to_position (store : List AudioRecord) (audio_id_to_move : String)
    (new_position : Int) : List AudioRecord × Reply × Bool :=
  if store.isEmpty then (store, .moveEmptyList, false)
  else
    match find_loop audio_id_to_move store with
    | none => (store, .moveNotFound, false)
    | some (original_index, audio_to_move) =>
      let target_index : Int := new_position - 1
      if 0 ≤ target_index ∧ target_index ≤ (store.length : Int) - 1 then
        ((store.eraseIdx original_index).insertIdx target_index.toNat audio_to_move,
         .moved, true)
      else (store, .moveInvalidPosition, false)

/-- `move_audio_command` (main.py lines 219-295): guard, two-argument
check, `int(...)` parse of the position (modelled by `String.toInt?`),
then the core move. -/
def move_audio_command (users : List Int) (uid : Int) (store : List AudioRecord)
    (args : List String) : List AudioRecord × Reply × Bool :=
  if guard_denies users uid then (store, .noRights, false)
  else
    match args with
    | [a0, a1] =>
      match a1.toInt? with
      | none => (store, .moveBadNumber, false)
      | some new_position => move_to_position store (pyStrip a0) new_position
    | _ => (store, .moveUsage, false)

/-- The update loop of the `awaiting_new_name` branch of
`handle_text_input` (main.py lines 467-473): update the author and name of
the first record whose `file_id` matches. -/
def update_loop (audio_id new_author new_name : String) :
    List AudioRecord → List AudioRecord × Bool
  | [] => ([], false)
  | item :: rest =>
    if item.file_id = audio_id then
      ({ item with author := new_author, name := new_name } :: rest, true)
    else
      let r := update_loop audio_id new_author new_name rest
      (item :: r.1, r.2)

/-- `add_audio_command` (main.py lines 116-128): guard, then set
`state = "awaiting_audio_for_add"`. -/
def add_audio_command (users : List Int) (uid : Int) (d : UserData) : UserData × Reply :=
  if guard_denies users uid then (d, .noRights)
  else ({ d with state := some .awaiting_audio_for_add }, .askAudio)

/-- `edit_audio_command` (main.py lines 298-338): guard, argument check,
find the record, then move to `awaiting_new_author` remembering the id. -/
def edit_audio_command (users : List Int) (uid : Int) (store : List AudioRecord)
    (args : List String) (d : UserData) : UserData × Reply :=
  if guard_denies users uid then (d, .noRights)
  else
    match args with
    | [] => (d, .editUsage)
    | arg0 :: _ =>
      let audio_id_to_edit := pyStrip arg0
      match find_loop audio_id_to_edit store with
      | none => (d, .editNotFound)
      | some _ =>
        ({ d with state := some .awaiting_new_author,
                  editing_audio_id := some audio_id_to_edit }, .editPrompt)

/-- The media payload of an incoming message handled by `handle_audio`:
a voice note, an audio file, or neither. -/
inductive MediaPayload
  | voiceMsg (file_id : String)
  | audioMsg (file_id : String)
  | otherMsg
deriving DecidableEq

/-- `handle_audio` (main.py lines 341-389): guard, state check, extract
the file id and kind, and when the id is truthy store the pending entry
and move to `awaiting_author_name`. -/
def handle_audio (users : List Int) (uid : Int) (msg : MediaPayload) (d : UserData) :
    UserData × Reply :=
  if guard_denies users uid then (d, .noRightsAdd)
  else if ¬(d.state = some .awaiting_audio_for_add) then (d, .useAdd)
  else
    match msg with
    | .voiceMsg fid =>
      if fid = "" then (d, .noReply)
      else
        ({ d with pending_audio_file_id := some fid,
                  pending_audio_file_type := some .voice,
                  state := some .awaiting_author_name }, .gotAudioAskAuthor)
    | .audioMsg fid =>
      if fid = "" then (d, .noReply)
      else
        ({ d with pending_audio_file_id := some fid,
                  pending_audio_file_type := some .audio,
                  state := some .awaiting_author_name }, .gotAudioAskAuthor)
    | .otherMsg => (d, .unsupportedMedia)

/-- `handle_text_input` (main.py lines 391-501): dispatch on the current
conversation state; returns the new user data, the new store, the reply,
and whether `save_audio_metadata` was called. -/
def handle_text_input (uid : Int) (text : String) (store : List AudioRecord)
    (d : UserData) : UserData × List AudioRecord × Reply × Bool :=
  match d.state with
  | some .awaiting_author_name =>
    let author_name := pyStrip text
    if ¬(author_name = "") then
      ({ d with temp_author_name := some author_name,
                state := some .awaiting_audio_name }, store, .askName, false)
    else (d, store, .pleaseAuthor, false)
  | some .awaiting_audio_name =>
    let audio_name := pyStrip text
    let d2 : UserData :=
      { d with pending_audio_file_id := none, pending_audio_file_type := none,
               temp_author_name := none, state := none }
    match d.pending_audio_file_id, d.pending_audio_file_type, d.temp_author_name with
    | some fid, some ft, some an =>
      if ¬(audio_name = "") ∧ ¬(fid = "") ∧ ¬(an = "") then
        (d2,
         store ++ [{ name := audio_name, author := an, file_id := fid,
                     ftype := ft, telegram_user_id := uid }],
         .savedRecord, true)
      else (d2, store, .somethingWrong, false)
    | _, _, _ => (d2, store, .somethingWrong, false)
  | some .awaiting_new_author =>
    let new_author := pyStrip text
    if ¬(new_author = "") then
      ({ d with temp_new_author := some new_author,
                state := some .awaiting_new_name }, store, .askNewName, false)
    else (d, store, .pleaseNewAuthor, false)
  | some .awaiting_new_name =>
    let new_name := pyStrip text
    let d2 : UserData :=
      { d with editing_audio_id := none, temp_new_author := none, state := none }
    match d.editing_audio_id, d.temp_new_author with
    | some aid, some na =>
      if ¬(new_name = "") ∧ ¬(aid = "") ∧ ¬(na = "") then
        let r := update_loop aid na new_name store
        if r.2 then (d2, r.1, .updated, true) else (d2, r.1, .updateNotFound, false)
      else (d2, store, .editSomethingWrong, false)
    | _, _ => (d2, store, .editSomethingWrong, false)
  | _ => (d, store, .generalText, false)

/-- The match condition of the list comprehension in `inline_query`
(main.py lines 515-521): the (lower-cased) query is a substring of the
lower-cased name or author, or the query is empty. -/
def match_item (query : String) (item : AudioRecord) : Bool :=
  containsSub query (strLower item.name) || containsSub query (strLower item.author)
    || query = ""

/-- `filtered_audios` of `inline_query` (main.py lines 506-521): lower-case
the raw query, then filter the store. -/
def filtered_audios (raw_query : String) (store : List AudioRecord) :
    List AudioRecord :=
  store.filter (fun item => match_item (strLower raw_query) item)

/-- The result list built by `inline_query` in main.py (lines 523-547):
one cached-voice/audio suggestion per filtered record, titled
`"{author} - {name}"`; no cap is applied before `answer`. -/
def inline_query_results (raw_query : String) (store : List AudioRecord) :
    List InlineResult :=
  (filtered_audios raw_query store).map (fun item =>
    { rkind := item.ftype, file_id := item.file_id,
      title := item.author ++ " - " ++ item.name })

/-- One entry of `voice_db` in Perduny_bot.py (lines 49-54). -/
structure VoiceEntry where
  vid : String
  file_id : String
  file_unique_id : String
  caption : String
deriving DecidableEq

/-- The `InlineQueryResultVoice` built by `inline_query` in Perduny_bot.py. -/
structure PerdunyResult where
  rid : String
  file_id : String
  title : String
deriving DecidableEq

/-- `inline_query` of Perduny_bot.py (lines 76-88): filter by caption
substring, title is the caption (or `"No title"` when falsy), and the
answer is capped to the first 10 results (`results[:10]`). -/
def perduny_inline_query (raw_query : String) (db : List VoiceEntry) :
    List PerdunyResult :=
  let query := strLower raw_query
  ((db.filter (fun v => containsSub query (strLower v.caption))).map (fun v =>
    { rid := v.vid, file_id := v.file_id,
      title := if v.caption = "" then "No title" else v.caption })).take 10

/-- `AUDIOS_PER_PAGE` (main.py line 35). -/
def AUDIOS_PER_PAGE : Nat := 5

/-- Python slice `l[a:b]` for `0 ≤ a ≤ b`. -/
def pySlice (l : List AudioRecord) (a b : Nat) : List AudioRecord :=
  (l.drop a).take (b - a)

/-- `send_paginated_audios` (main.py lines 564-699), message bookkeeping
aside: empty store short-circuits to the "nothing stored" message; the
page index is clamped into `[0, total_pages-1]` when out of range; the
slice `store[start_index:end_index]` is rendered with a previous button
iff `page > 0` and a next button iff `page < total_pages - 1`. -/
def send_paginated_audios (audios_per_page : Nat) (store : List AudioRecord)
    (page : Int) : RenderResult :=
  if store.isEmpty then .nothingStored
  else
    let total_audios := store.length
    let total_pages := (total_audios + audios_per_page - 1) / audios_per_page
    let pageAdj : Option Int :=
      if 0 ≤ page ∧ page < (total_pages : Int) then some page
      else if 0 < total_pages then some (max 0 (min page ((total_pages : Int) - 1)))
      else none
    match pageAdj with
    | none => .nothingStored
    | some pg =>
      let p := pg.toNat
      let start_index := p * audios_per_page
      let end_index := min (start_index + audios_per_page) total_audios
      .pageMsg { audios := pySlice store start_index end_index,
                 hasPrev := decide (0 < pg),
                 hasNext := decide (pg < (total_pages : Int) - 1),
                 pageNum := p, totalPages := total_pages }

/-- The records contained in a render result. -/
def renderedAudios : RenderResult → List AudioRecord
  | .nothingStored => []
  | .pageMsg v => v.audios

/-- An inbound update, split the way the registered handlers split it:
a command message (`CommandHandler`), a voice/audio message
(`filters.VOICE | filters.AUDIO`), a non-command text message
(`filters.TEXT & ~filters.COMMAND`), an inline query, or a callback. -/
inductive Incoming
  | command (cmdName : String) (args : List String)
  | mediaMsg (m : MediaPayload)
  | textMsg (text : String)
  | inlineMsg (query : String)
  | callbackMsg (dat : String)
deriving DecidableEq

/-- The mutable state touched by the handlers: the global
`cached_audios_data` list and one user's `user_data`. -/
structure BotState where
  cached_audios_data : List AudioRecord
  user_data : UserData
deriving DecidableEq

/-- The dispatch set up by `run_server` (main.py lines 744-758): command
handlers for start/add/list/delete/move/edit/voices, the media handler,
the non-command text handler, the inline handler and the pagination
callback.  A command whose name is registered by no handler matches
nothing and changes nothing.  The returned `Bool` records whether
`save_audio_metadata` was called. -/
def process_update (users : List Int) (uid : Int) (st : BotState) (inc : Incoming) :
    BotState × Reply × Bool :=
  match inc with
  | .command nm args =>
    if nm = "start" then (st, .startMsg, false)
    else if nm = "add" then
      let r := add_audio_command users uid st.user_data
      ({ st with user_data := r.1 }, r.2, false)
    else if nm = "list" then (st, .listMsg, false)
    else if nm = "delete" then
      let r := delete_audio_command users uid st.cached_audios_data args
      ({ st with cached_audios_data := r.1 }, r.2.1, r.2.2)
    else if nm = "move" then
      let r := move_audio_command users uid st.cached_audios_data args
      ({ st with cached_audios_data := r.1 }, r.2.1, r.2.2)
    else if nm = "edit" then
      let r := edit_audio_command users uid st.cached_audios_data args st.user_data
      ({ st with user_data := r.1 }, r.2, false)
    else if nm = "voices" then
      (st, .pageAnswer (send_paginated_audios AUDIOS_PER_PAGE st.cached_audios_data 0),
       false)
    else (st, .noReply, false)
  | .mediaMsg m =>
    let r := handle_audio users uid m st.user_data
    ({ st with user_data := r.1 }, r.2, false)
  | .textMsg text =>
    let r := handle_text_input uid text st.cached_audios_data st.user_data
    ({ st with user_data := r.1, cached_audios_data := r.2.1 }, r.2.2.1, r.2.2.2)
  | .inlineMsg q =>
    (st, .inlineAnswer (inline_query_results q st.cached_audios_data), false)
  | .callbackMsg dat =>
    if dat.startsWith "voices_page_" then
      match ((dat.splitOn "_").getD 2 "").toInt? with
      | some p =>
        (st, .pageAnswer (send_paginated_audios AUDIOS_PER_PAGE st.cached_audios_data p),
         false)
      | none => (st, .callbackError, false)
    else (st, .noReply, false)

/-- A sample record used to instantiate theorems at concrete inputs. -/
def sampleRec (nm au fid : String) : AudioRecord :=
  { name := nm, author := au, file_id := fid, ftype := .voice, telegram_user_id := 0 }

lemma substrList_nil (l : List Char) : substrList [] l = true := by
  cases l <;> simp [substrList, List.isPrefixOf]

lemma containsSub_nil (hay : String) : containsSub "" hay = true := by
  simpa [containsSub] using substrList_nil hay.toList

/-- C4: `Search("")` returns every record in store order; `Search(q)`
returns exactly the records whose lower-cased name or author contains the
lower-cased query as a substring, in store order; and through the
dispatcher an inline query leaves the bot state unchanged, so a repeated
identical query returns the same results. -/
theorem inline_search_spec :
    (∀ store : List AudioRecord, filtered_audios "" store = store)
  ∧ (∀ (q : String) (store : List AudioRecord),
      filtered_audios q store = store.filter (fun item =>
        containsSub (strLower q) (strLower item.name)
          || containsSub (strLower q) (strLower item.author)))
  ∧ (∀ (users : List Int) (uid : Int) (st : BotState) (q : String),
      process_update users uid st (.inlineMsg q) =
        (st, .inlineAnswer (inline_query_results q st.cached_audios_data), false)
      ∧ (process_update users uid
            (process_update users uid st (.inlineMsg q)).1 (.inlineMsg q)).2.1 =
          (process_update users uid st (.inlineMsg q)).2.1) := by
  refine ⟨?_, ?_, ?_⟩
  · intro store
    have h0 : strLower "" = "" := rfl
    simp [filtered_audios, match_item, h0]
  · intro q store
    unfold filtered_audios
    refine List.filter_congr ?_
    intro item _
    by_cases h : strLower q = ""
    · simp [match_item, h, containsSub_nil]
    · simp [match_item, h]
  · intro users uid st q
    exact ⟨rfl, rfl⟩

/-- C7: `IsAuthorized` holds iff the allow-list is empty or contains the
identity; and an unauthorized identity invoking delete on an existing
handle gets the denial reply while the store is neither mutated nor
persisted. -/
theorem access_guard_spec :
    (∀ (users : List Int) (uid : Int),
        is_authorized users uid = true ↔ users = [] ∨ uid ∈ users)
  ∧ (∀ (users : List Int) (uid : Int) (store : List AudioRecord) (handle : String),
        guard_denies users uid = true →
        (∃ r ∈ store, r.file_id = handle) →
        delete_audio_command users uid store [handle] = (store, .noRights, false)) := by
  constructor
  · intro users uid
    simp [is_authorized, guard_denies, List.isEmpty_iff]
  · intro users uid store handle hden _
    simp [delete_audio_command, hden]

theorem access_guard_witness :
    (is_authorized [5] 7 = true ↔ [5] = ([] : List Int) ∨ (7 : Int) ∈ [5])
    ∧ delete_audio_command [5] 7 [sampleRec "n" "a" "f"] ["f"]
        = ([sampleRec "n" "a" "f"], .noRights, false) :=
  ⟨access_guard_spec.1 [5] 7,
   access_guard_spec.2 [5] 7 [sampleRec "n" "a" "f"] "f" (by decide)
     ⟨sampleRec "n" "a" "f", by simp, rfl⟩⟩

/-- C8 (counterexample): no cancel command is registered by `run_server`,
so sending the command `cancel` while in `awaiting_author_name` with a
pending attachment leaves the state and the pending entry untouched —
the state is not forced to idle and the pending entry is not cleared. -/
theorem cancel_command_counterexample :
    (process_update [] 7
        ⟨[], ⟨some .awaiting_author_name, some "H1", some .voice, none, none, none⟩⟩
        (.command "cancel" [])).1.user_data.state = some .awaiting_author_name
    ∧ (process_update [] 7
        ⟨[], ⟨some .awaiting_author_name, some "H1", some .voice, none, none, none⟩⟩
        (.command "cancel" [])).1.user_data.pending_audio_file_id = some "H1"
    ∧ ¬((process_update [] 7
        ⟨[], ⟨some .awaiting_author_name, some "H1", some .voice, none, none, none⟩⟩
        (.command "cancel" [])).1.user_data.state = none) := by
  decide

/-- C8 (amended): main.py registers no cancel handler, so an explicit
cancel command matches no handler: it leaves the store, the conversation
state and the pending entry unchanged from every state, produces no
reply and does not persist. -/
theorem cancel_command_ignored (users : List Int) (uid : Int) (st : BotState)
    (args : List String) :
    process_update users uid st (.command "cancel" args) = (st, .noReply, false) := by
  simp [process_update]

/-- C9 (counterexample): main.py's `inline_query` applies no cap: a store
of 11 matching records yields 11 suggestion items. -/
theorem inline_cap_counterexample :
    ¬((inline_query_results "" (List.replicate 11 (sampleRec "n" "a" "f"))).length ≤ 10) := by
  decide

/-- C9 (amended): in main.py every inline suggestion's title is
synthesized as `"{author} - {display_name}"` from a record of the store,
but no cap is applied there; the 10-item cap is applied by
Perduny_bot.py's inline mode (whose titles are the caption instead). -/
theorem inline_results_amended :
    (∀ (q : String) (store : List AudioRecord) (r : InlineResult),
        r ∈ inline_query_results q store →
        ∃ item, item ∈ store ∧ r.title = item.author ++ " - " ++ item.name)
  ∧ (∀ (q : String) (db : List VoiceEntry),
        (perduny_inline_query q db).length ≤ 10) := by
  constructor
  · intro q store r hr
    unfold inline_query_results at hr
    rcases List.mem_map.mp hr with ⟨item, hitem, heq⟩
    unfold filtered_audios at hitem
    exact ⟨item, List.mem_of_mem_filter hitem, by rw [← heq]⟩
  · intro q db
    simp [perduny_inline_query]

theorem inline_results_amended_witness :
    ∃ item, item ∈ [sampleRec "n" "a" "f"]
      ∧ (InlineResult.mk .voice "f" "a - n").title = item.author ++ " - " ++ item.name :=
  inline_results_amended.1 "" [sampleRec "n" "a" "f"] ⟨.voice, "f", "a - n"⟩ (by decide)

/-- C10: a whitespace-only text in `awaiting_audio_name` appends no
record but pops the pending file id, kind, author and the state (back to
idle), while the same input in `awaiting_author_name` leaves the user
data unchanged and merely reprompts. -/
theorem awaiting_name_whitespace (uid : Int) (text : String)
    (store : List AudioRecord) (d : UserData) (hws : pyStrip text = "") :
    (d.state = some .awaiting_audio_name →
      handle_text_input uid text store d =
        ({ d with pending_audio_file_id := none, pending_audio_file_type := none,
                  temp_author_name := none, state := none }, store, .somethingWrong, false))
  ∧ (d.state = some .awaiting_author_name →
      handle_text_input uid text store d = (d, store, .pleaseAuthor, false)) := by
  constructor
  · intro h
    cases hfid : d.pending_audio_file_id <;> cases hft : d.pending_audio_file_type <;>
      cases han : d.temp_author_name <;>
      simp [handle_text_input, h, hws, hfid, hft, han]
  · intro h
    simp [handle_text_input, h, hws]

theorem awaiting_name_whitespace_witness :
    handle_text_input 0 " " []
        ⟨some .awaiting_audio_name, some "H", some .voice, some "A", none, none⟩ =
      (⟨none, none, none, none, none, none⟩, [], .somethingWrong, false)
    ∧ handle_text_input 0 " " []
        ⟨some .awaiting_author_name, some "H", some .voice, none, none, none⟩ =
      (⟨some .awaiting_author_name, some "H", some .voice, none, none, none⟩, [],
        .pleaseAuthor, false) :=
  ⟨(awaiting_name_whitespace 0 " " []
      ⟨some .awaiting_audio_name, some "H", some .voice, some "A", none, none⟩
      (by decide)).1 rfl,
   (awaiting_name_whitespace 0 " " []
      ⟨some .awaiting_author_name, some "H", some .voice, none, none, none⟩
      (by decide)).2 rfl⟩

/-- C2: from the state entered by `/add`, the event sequence
attachment `H`, text `"Alice"`, text `"Track1"` appends exactly the record
`{file_id H, author "Alice", name "Track1"}` to the store, persists it and
returns the user to idle; while sending `"Track1"` right after the
attachment step creates no record — it is stored as the pending author. -/
theorem add_flow_scenario (users : List Int) (uid : Int) (store : List AudioRecord)
    (H : String) (d : UserData) (hauth : guard_denies users uid = false)
    (hH : ¬(H = "")) :
    (handle_text_input uid "Alice" store
        (handle_audio users uid (.voiceMsg H) (add_audio_command users uid d).1).1).2.1
      = store
    ∧ (handle_text_input uid "Track1"
        (handle_text_input uid "Alice" store
          (handle_audio users uid (.voiceMsg H) (add_audio_command users uid d).1).1).2.1
        (handle_text_input uid "Alice" store
          (handle_audio users uid (.voiceMsg H) (add_audio_command users uid d).1).1).1).2.1
      = store ++ [{ name := "Track1", author := "Alice", file_id := H, ftype := .voice,
                    telegram_user_id := uid }]
    ∧ (handle_text_input uid "Track1"
        (handle_text_input uid "Alice" store
          (handle_audio users uid (.voiceMsg H) (add_audio_command users uid d).1).1).2.1
        (handle_text_input uid "Alice" store
          (handle_audio users uid (.voiceMsg H) (add_audio_command users uid d).1).1).1).1.state
      = none
    ∧ (handle_text_input uid "Track1"
        (handle_text_input uid "Alice" store
          (handle_audio users uid (.voiceMsg H) (add_audio_command users uid d).1).1).2.1
        (handle_text_input uid "Alice" store
          (handle_audio users uid (.voiceMsg H) (add_audio_command users uid d).1).1).1).2.2.2
      = true
    ∧ (handle_text_input uid "Track1" store
        (handle_audio users uid (.voiceMsg H) (add_audio_command users uid d).1).1).2.1
      = store
    ∧ (handle_text_input uid "Track1" store
        (handle_audio users uid (.voiceMsg H)
          (add_audio_command users uid d).1).1).1.temp_author_name
      = some "Track1" := by
  have hA : pyStrip "Alice" = "Alice" := rfl
  have hT : pyStrip "Track1" = "Track1" := rfl
  simp [add_audio_command, handle_audio, handle_text_input, hauth, hH, hA, hT]

theorem add_flow_scenario_witness :
    (handle_text_input 1 "Track1"
        (handle_text_input 1 "Alice" []
          (handle_audio [] 1 (.voiceMsg "h1") (add_audio_command [] 1 emptyUserData).1).1).2.1
        (handle_text_input 1 "Alice" []
          (handle_audio [] 1 (.voiceMsg "h1") (add_audio_command [] 1 emptyUserData).1).1).1).2.1
      = [{ name := "Track1", author := "Alice", file_id := "h1", ftype := .voice,
           telegram_user_id := 1 }] :=
  (add_flow_scenario [] 1 [] "h1" emptyUserData rfl (by decide)).2.1

lemma delete_loop_no_match (id : String) (l : List AudioRecord)
    (h : ∀ r ∈ l, ¬(r.file_id = id)) : delete_loop id l = (l, false) := by
  induction l with
  | nil => rfl
  | cons a t ih =>
    have ha := h a (by simp)
    simp [delete_loop, ha, ih (fun r hr => h r (by simp [hr]))]

lemma delete_loop_found (id : String) (s₁ s₂ : List AudioRecord) (rec : AudioRecord)
    (hrec : rec.file_id = id) (h1 : ∀ r ∈ s₁, ¬(r.file_id = id))
    (h2 : ∀ r ∈ s₂, ¬(r.file_id = id)) :
    delete_loop id (s₁ ++ rec :: s₂) = (s₁ ++ s₂, true) := by
  induction s₁ with
  | nil => simp [delete_loop, hrec, delete_loop_no_match id s₂ h2]
  | cons a t ih =>
    simp [delete_loop, h1 a (by simp), ih (fun r hr => h1 r (by simp [hr]))]

/-- C5: for an authorized user, deleting a handle held by exactly one
record removes precisely that record and persists; deleting a handle held
by no record reports not-found, does not persist, and leaves the store's
contents (hence size) unchanged. -/
theorem delete_by_handle_spec (users : List Int) (uid : Int) (handle : String)
    (hauth : guard_denies users uid = false) (hstr : pyStrip handle = handle) :
    (∀ store : List AudioRecord, (∀ r ∈ store, ¬(r.file_id = handle)) →
        delete_audio_command users uid store [handle] = (store, .deleteNotFound, false))
  ∧ (∀ (s₁ s₂ : List AudioRecord) (rec : AudioRecord), rec.file_id = handle →
        (∀ r ∈ s₁, ¬(r.file_id = handle)) → (∀ r ∈ s₂, ¬(r.file_id = handle)) →
        delete_audio_command users uid (s₁ ++ rec :: s₂) [handle] =
          (s₁ ++ s₂, .deleted, true)) := by
  constructor
  · intro store hno
    simp [delete_audio_command, hauth, hstr, delete_loop_no_match handle store hno]
  · intro s₁ s₂ rec hrec h1 h2
    simp [delete_audio_command, hauth, hstr, delete_loop_found handle s₁ s₂ rec hrec h1 h2]

theorem delete_by_handle_witness :
    delete_audio_command [] 0 [sampleRec "n" "a" "f"] ["x"]
      = ([sampleRec "n" "a" "f"], .deleteNotFound, false)
    ∧ delete_audio_command [] 0 [sampleRec "n" "a" "x"] ["x"] = ([], .deleted, true) :=
  ⟨(delete_by_handle_spec [] 0 "x" rfl rfl).1 [sampleRec "n" "a" "f"] (by decide),
   (delete_by_handle_spec [] 0 "x" rfl rfl).2 [] [] (sampleRec "n" "a" "x") rfl
     (by decide) (by decide)⟩

lemma find_loop_getElem (id : String) (l : List AudioRecord) (i : Nat)
    (rec : AudioRecord) (h : find_loop id l = some (i, rec)) : l[i]? = some rec := by
  induction l generalizing i with
  | nil => simp [find_loop] at h
  | cons a t ih =>
    by_cases ha : a.file_id = id
    · simp [find_loop, ha] at h
      obtain ⟨rfl, rfl⟩ := h
      simp
    · simp only [find_loop, if_neg ha] at h
      cases hft : find_loop id t with
      | none => rw [hft] at h; simp at h
      | some q =>
        rw [hft] at h
        simp only [Option.some.injEq, Prod.mk.injEq] at h
        obtain ⟨hi, hrec⟩ := h
        subst hrec
        have hq := ih q.1 (by rw [hft])
        rw [← hi]
        simpa using hq

/-- C1: for a handle present in the store (found at index `i`, record
`rec`) and a 1-indexed position `p` within `[1, len]`, the move results in
the store having `rec` exactly at zero-indexed position `p - 1`, all other
records keep their relative order (removing the moved record gives the
original store minus `rec`), and the change is persisted. -/
theorem move_to_position_valid (store : List AudioRecord) (audio_id : String)
    (p : Int) (i : Nat) (rec : AudioRecord)
    (hfind : find_loop audio_id store = some (i, rec))
    (hp1 : 1 ≤ p) (hp2 : p ≤ (store.length : Int)) :
    move_to_position store audio_id p =
      ((store.eraseIdx i).insertIdx (p - 1).toNat rec, .moved, true)
    ∧ (move_to_position store audio_id p).1[(p - 1).toNat]? = some rec
    ∧ ((move_to_position store audio_id p).1).eraseIdx (p - 1).toNat
        = store.eraseIdx i := by
  have hget := find_loop_getElem audio_id store i rec hfind
  have hlt : i < store.length := by
    rcases List.getElem?_eq_some_iff.mp hget with ⟨h, _⟩
    exact h
  have hne : store.isEmpty = false := by
    cases store
    · simp at hlt
    · rfl
  have hmv : move_to_position store audio_id p =
      ((store.eraseIdx i).insertIdx (p - 1).toNat rec, .moved, true) := by
    unfold move_to_position
    rw [hne]
    simp only [Bool.false_eq_true, if_false, hfind]
    rw [if_pos ⟨by omega, by omega⟩]
  have hlen : (store.eraseIdx i).length = store.length - 1 := by
    rw [List.length_eraseIdx, if_pos hlt]
  have hle : (p - 1).toNat ≤ (store.eraseIdx i).length := by
    rw [hlen]; omega
  refine ⟨hmv, ?_, ?_⟩
  · rw [hmv]
    have h1 : ((store.eraseIdx i).insertIdx (p - 1).toNat rec).length
        = (store.eraseIdx i).length + 1 := List.length_insertIdx _ _ hle
    rw [List.getElem?_eq_getElem (by rw [h1]; omega)]
    exact congrArg some (List.getElem_insertIdx_self _ _ _ hle)
  · rw [hmv]
    exact List.eraseIdx_insertIdx _ _

theorem move_to_position_valid_witness :
    move_to_position
        [sampleRec "a" "b" "f1", sampleRec "c" "d" "f2", sampleRec "e" "g" "f3"] "f3" 1
      = ([sampleRec "e" "g" "f3", sampleRec "a" "b" "f1", sampleRec "c" "d" "f2"],
         .moved, true) :=
  (move_to_position_valid
    [sampleRec "a" "b" "f1", sampleRec "c" "d" "f2", sampleRec "e" "g" "f3"] "f3" 1 2
    (sampleRec "e" "g" "f3") (by decide) (by decide) (by decide)).1

/-- C6: for a handle present in the store, a 1-indexed position outside
`[1, len]` is rejected: the store is returned unchanged, nothing is
persisted, and the invalid-position error is reported instead of any
silent clamping. -/
theorem move_to_position_invalid (store : List AudioRecord) (audio_id : String)
    (p : Int) (i : Nat) (rec : AudioRecord)
    (hfind : find_loop audio_id store = some (i, rec))
    (hp : p < 1 ∨ (store.length : Int) < p) :
    move_to_position store audio_id p = (store, .moveInvalidPosition, false) := by
  have hne : store.isEmpty = false := by
    cases store
    · simp [find_loop] at hfind
    · rfl
  unfold move_to_position
  rw [hne]
  simp only [Bool.false_eq_true, if_false, hfind]
  rw [if_neg (by omega)]

theorem move_to_position_invalid_witness :
    move_to_position [sampleRec "a" "b" "f1"] "f1" 5
      = ([sampleRec "a" "b" "f1"], .moveInvalidPosition, false) :=
  move_to_position_invalid [sampleRec "a" "b" "f1"] "f1" 5 0 (sampleRec "a" "b" "f1")
    (by decide) (Or.inr (by decide))

lemma total_pages_pos (k N : Nat) (hk : 0 < k) (hN : 0 < N) : 0 < (N + k - 1) / k :=
  Nat.div_pos (by omega) hk

lemma total_pages_succ (k N : Nat) (hk : 0 < k) (hN : 0 < N) :
    (N + k - 1) / k = (N - k + k - 1) / k + 1 := by
  rcases le_or_lt N k with h | h
  · have h1 : N - k = 0 := by omega
    have h2 : N + k - 1 = (N - 1) + k := by omega
    rw [h1, h2, Nat.add_div_right _ hk, Nat.div_eq_of_lt (show N - 1 < k by omega),
        Nat.div_eq_of_lt (show 0 + k - 1 < k by omega)]
  · have h2 : N + k - 1 = (N - k + k - 1) + k := by omega
    rw [h2, Nat.add_div_right _ hk]

lemma join_chunks (k : Nat) (hk : 0 < k) :
    ∀ (n : Nat) (l : List AudioRecord), l.length ≤ n →
      ((List.range ((l.length + k - 1) / k)).map (fun p => (l.drop (p * k)).take k)).flatten
        = l := by
  intro n
  induction n with
  | zero =>
    intro l hl
    have h0 : l = [] := List.length_eq_zero.mp (by omega)
    subst h0
    simp [Nat.div_eq_of_lt (show 0 + k - 1 < k by omega)]
  | succ n ih =>
    intro l hl
    rcases eq_or_ne l [] with rfl | hne
    · simp [Nat.div_eq_of_lt (show 0 + k - 1 < k by omega)]
    · have hN : 0 < l.length := List.length_pos.mpr hne
      rw [total_pages_succ k l.length hk hN, List.range_succ_eq_map, List.map_cons,
          List.flatten_cons, List.map_map]
      have hfun : ((fun p => (l.drop (p * k)).take k) ∘ Nat.succ)
          = fun p => (((l.drop k).drop (p * k)).take k) := by
        funext p
        simp only [Function.comp_apply, List.drop_drop]
        rw [Nat.succ_mul, Nat.add_comm]
      rw [hfun,
          show (l.length - k + k - 1) / k = ((l.drop k).length + k - 1) / k by
            rw [List.length_drop],
          ih (l.drop k) (by rw [List.length_drop]; omega)]
      simp

lemma list_isEmpty_false (store : List AudioRecord) (hne : ¬(store = [])) :
    store.isEmpty = false := by
  cases store
  · exact absurd rfl hne
  · rfl

lemma send_page_in_range (k : Nat) (store : List AudioRecord) (p : Nat)
    (hne : ¬(store = [])) (hp : p < (store.length + k - 1) / k) :
    send_paginated_audios k store (p : Int) =
      .pageMsg { audios := pySlice store (p * k) (min (p * k + k) store.length),
                 hasPrev := decide (0 < p),
                 hasNext := decide (p + 1 < (store.length + k - 1) / k),
                 pageNum := p, totalPages := (store.length + k - 1) / k } := by
  unfold send_paginated_audios
  rw [list_isEmpty_false store hne]
  simp only [Bool.false_eq_true, if_false]
  rw [if_pos ⟨by omega, by omega⟩]
  dsimp only
  rw [Int.toNat_natCast]
  simp only [RenderResult.pageMsg.injEq, PageView.mk.injEq, true_and, and_true]
  constructor <;> (rw [decide_eq_decide]; omega)

lemma send_page_clamp (k : Nat) (hk : 0 < k) (store : List AudioRecord) (page : Int)
    (hne : ¬(store = []))
    (hout : ¬(0 ≤ page ∧ page < (((store.length + k - 1) / k : Nat) : Int))) :
    send_paginated_audios k store page =
      send_paginated_audios k store
        (max 0 (min page ((((store.length + k - 1) / k : Nat) : Int) - 1))) := by
  have hN : 0 < store.length := List.length_pos.mpr hne
  have htp : 0 < (store.length + k - 1) / k := total_pages_pos k store.length hk hN
  unfold send_paginated_audios
  rw [list_isEmpty_false store hne]
  simp only [Bool.false_eq_true, if_false]
  rw [if_neg hout, if_pos (by exact_mod_cast htp),
      if_pos (show (0 : Int) ≤ max 0 (min page ((((store.length + k - 1) / k : Nat) : Int) - 1))
            ∧ max 0 (min page ((((store.length + k - 1) / k : Nat) : Int) - 1))
              < (((store.length + k - 1) / k : Nat) : Int) by omega)]

lemma send_page_partition (k : Nat) (hk : 0 < k) (store : List AudioRecord)
    (hne : ¬(store = [])) :
    ((List.range ((store.length + k - 1) / k)).map
      (fun (p : Nat) => renderedAudios (send_paginated_audios k store (p : Int)))).flatten
      = store := by
  have hmap : (List.range ((store.length + k - 1) / k)).map
      (fun (p : Nat) => renderedAudios (send_paginated_audios k store (p : Int)))
      = (List.range ((store.length + k - 1) / k)).map
          (fun p => (store.drop (p * k)).take k) := by
    refine List.map_congr_left ?_
    intro p hp
    rw [List.mem_range] at hp
    rw [send_page_in_range k store p hne hp]
    unfold renderedAudios pySlice
    rw [List.take_eq_take, List.length_drop]
    omega
  rw [hmap, join_chunks k hk store.length store le_rfl]

/-- C3: pagination — an empty store renders the single "nothing stored"
message; an out-of-range page index is clamped into `[0, totalPages-1]`;
an in-range page `p` renders exactly the slice
`store[p*k : min((p+1)*k, len)]` with a previous affordance iff `p > 0`
and a next affordance iff `p < totalPages - 1`; and the pages
`0 .. totalPages-1` of a non-empty store partition it exactly. -/
theorem send_paginated_audios_spec (k : Nat) (hk : 0 < k) :
    (∀ page : Int, send_paginated_audios k [] page = .nothingStored)
  ∧ (∀ (store : List AudioRecord) (page : Int), ¬(store = []) →
      ¬(0 ≤ page ∧ page < (((store.length + k - 1) / k : Nat) : Int)) →
      send_paginated_audios k store page =
        send_paginated_audios k store
          (max 0 (min page ((((store.length + k - 1) / k : Nat) : Int) - 1))))
  ∧ (∀ (store : List AudioRecord) (p : Nat), ¬(store = []) →
      p < (store.length + k - 1) / k →
      send_paginated_audios k store (p : Int) =
        .pageMsg { audios := pySlice store (p * k) (min (p * k + k) store.length),
                   hasPrev := decide (0 < p),
                   hasNext := decide (p + 1 < (store.length + k - 1) / k),
                   pageNum := p, totalPages := (store.length + k - 1) / k })
  ∧ (∀ store : List AudioRecord, ¬(store = []) →
      ((List.range ((store.length + k - 1) / k)).map
        (fun (p : Nat) => renderedAudios (send_paginated_audios k store (p : Int)))).flatten
        = store) :=
  ⟨fun _ => rfl,
   fun store page hne hout => send_page_clamp k hk store page hne hout,
   fun store p hne hp => send_page_in_range k store p hne hp,
   fun store hne => send_page_partition k hk store hne⟩

theorem send_paginated_audios_spec_witness :
    send_paginated_audios 5 [] 3 = .nothingStored
    ∧ ((List.range ((7 + 5 - 1) / 5)).map
        (fun (p : Nat) => renderedAudios (send_paginated_audios 5
          (List.replicate 7 (sampleRec "n" "a" "f")) (p : Int)))).flatten
      = List.replicate 7 (sampleRec "n" "a" "f") := by
  have h := send_paginated_audios_spec 5 (by decide)
  exact ⟨h.1 3, h.2.2.2 (List.replicate 7 (sampleRec "n" "a" "f")) (by decide)⟩

end Perduny
